import Mathlib

/-!
Verification development for the picknik pick-and-place repository.

Part 1 embeds the grasp feasibility filtering engine
(`moveit_grasps/include/moveit_grasps/grasp_filter.h`).  The repository
sources contain only the declarations of `GraspFilter` (the header); the
bodies of `filterGrasps`, `filterGraspThread`, `chooseBestGrasp` and
`filterGraspsInCollision` are therefore modelled from the specification
(spec.md §4.1-§4.4), as marked on each definition.

Part 2 embeds the task step sequencer of
`picknik_main/src/apc_manager.cpp` (`APCManager::graspObjectPipeline`,
`APCManager::runOrder`) directly from the source: the `switch`-based
step pipeline with its fall-through cases, the jump-to-step entry, the
operator-gate call whose result is discarded, and the per-order cleanup
in `runOrder`.

Part 3 embeds `FixStateBounds::fixBounds` of
`picknik_main/src/fix_state_bounds.cpp` over abstract joint-level
operations (the MoveIt robot-state primitives are external
collaborators).
-/

namespace Picknik

/-! ### Part 1: grasp feasibility filtering (modelled from the spec) -/

/-- Mirrors `struct GraspSolution` of `grasp_filter.h`: the collected data
for one potential grasp after it has been verified.  The original grasp
message is represented by the candidate's original index in the input
list; joint values are integers (the numeric contents are irrelevant to
the claims). -/
structure GraspSolution where
  graspIdx : Nat
  graspIkSolution : List Int
  pregraspIkSolution : List Int
deriving DecidableEq

/-- Modelled from the spec: the external `KinematicsProvider` interface
(spec.md §6) — a deterministic IK oracle giving, per candidate index, the
joint configuration solving the grasp pose and the pregrasp pose, or
`none` on failure/timeout.  The real solver plugins are out of scope. -/
structure KinematicsProvider where
  solveGrasp : Nat → Option (List Int)
  solvePregrasp : Nat → Option (List Int)

/-- Modelled from the spec: the per-candidate body of
`GraspFilter::filterGraspThread` (spec.md §4.2): (1) solve IK for the
grasp pose, skip the candidate on failure; (2) if `filterPregrasp`, solve
IK for the pregrasp pose, also skip on failure; (3) on success of all
required solves construct a `GraspSolution`.  (The implementation file of
`GraspFilter` is not among the sources; only `grasp_filter.h` is.) -/
def evalCandidate (ik : KinematicsProvider) (filterPregrasp : Bool) (i : Nat) :
    Option GraspSolution :=
  match ik.solveGrasp i with
  | none => none
  | some s =>
    if filterPregrasp then
      match ik.solvePregrasp i with
      | none => none
      | some p => some ⟨i, s, p⟩
    else
      some ⟨i, s, []⟩

/-- Modelled from the spec: one worker of `GraspFilter::filterGrasps`
iterating its contiguous index range `[lo, hi)` in input order and
collecting the surviving candidates (spec.md §4.2). -/
def filterGraspsWorker (ik : KinematicsProvider) (filterPregrasp : Bool)
    (lo hi : Nat) : List GraspSolution :=
  (List.range' lo (hi - lo)).filterMap (evalCandidate ik filterPregrasp)

/-- Modelled from the spec: the start index of worker `w`'s contiguous
range when `n` candidates are split across `workers` workers "as equal as
possible; remainder distributed to the first ranges" (spec.md §4.2): the
first `n % workers` workers get `n / workers + 1` candidates, the rest
get `n / workers`. -/
def workerStart (n workers w : Nat) : Nat :=
  w * (n / workers) + min w (n % workers)

/-- Modelled from the spec: `GraspFilter::filterGrasps` (spec.md §4.2) —
split the `n` input candidates into `workers` contiguous index ranges and
collect every worker's surviving candidates into one output collection.
The shared-collection insertion order is nondeterministic in the real
program; the spec directs callers to compare outputs as sets, and the
claims below are stated through membership, so the workers' results are
concatenated in worker order here. -/
def filterGrasps (ik : KinematicsProvider) (filterPregrasp : Bool)
    (n workers : Nat) : List GraspSolution :=
  (List.range workers).flatMap fun w =>
    filterGraspsWorker ik filterPregrasp (workerStart n workers w)
      (workerStart n workers (w + 1))

/-- The selector's error taxonomy entry for an empty candidate set
(spec.md §7). -/
inductive SelectorError where
  | NoFeasibleGrasp
deriving DecidableEq

/-- Modelled from the spec: `GraspFilter::chooseBestGrasp` (spec.md §4.4)
— fail with `NoFeasibleGrasp` on an empty candidate list, otherwise
return the first candidate in input order (the documented baseline
policy; the implementation file is not among the sources). -/
def chooseBestGrasp (candidates : List GraspSolution) :
    Except SelectorError GraspSolution :=
  match candidates with
  | [] => .error .NoFeasibleGrasp
  | c :: _ => .ok c

/-- Modelled from the spec: `GraspFilter::filterGraspsInCollision`
(spec.md §4.3) — a serial second pass that applies each candidate's joint
configuration to the world snapshot and retains only the collision-free
candidates, preserving relative order.  The validity query against the
planning scene is the external `WorldModel` collaborator, abstracted as
the predicate `collisionFree`. -/
def filterGraspsInCollision (collisionFree : GraspSolution → Bool)
    (candidates : List GraspSolution) : List GraspSolution :=
  candidates.filter collisionFree

/-- Mirrors `struct IkThreadStruct` of `grasp_filter.h` (the fields the
claims are about): the index range `[graspsIdStart, graspsIdEnd)` a
worker owns and the index into `GraspFilter::kin_solvers_[group]` of the
one solver instance handed to that worker. -/
structure IkThreadStruct where
  graspsIdStart : Nat
  graspsIdEnd : Nat
  kinSolverIdx : Nat
  threadId : Nat
deriving DecidableEq

/-- Modelled from the spec: the per-call construction of the worker
thread structs in `GraspFilter::filterGrasps` — thread `w` receives the
range starting at `workerStart` and the solver instance at index `w` of
the pre-provisioned per-group solver vector (`kin_solvers_`), one
independent solver per worker (spec.md §4.1, §5; design note "per-call
manual solver array indexed by worker id"). -/
def makeIkThreads (n workers : Nat) : List IkThreadStruct :=
  (List.range workers).map fun w =>
    ⟨workerStart n workers w, workerStart n workers (w + 1), w, w⟩

/-! ### Part 2: the task step sequencer (`APCManager::graspObjectPipeline`,
`APCManager::runOrder` of `picknik_main/src/apc_manager.cpp`) -/

/-- An observable event of one pipeline run: an operator-gate wait
(`remote_control_->waitForNextStep()`) or the execution of the
action-bearing body of one `switch` case. -/
inductive Event where
  | wait
  | act (caseIdx : Nat)
deriving DecidableEq

/-- Project an event to the executed case index, if any. -/
def Event.actIdx : Event → Option Nat
  | .wait => none
  | .act n => some n

/-- How one `graspObjectPipeline` run ends.  `completed` is the `default`
case (delete the product from the shelf, `return true`); `rosShutdown` is
the `while (ros::ok())` guard turning false (the loop exits and the
function returns `true` without deleting the product); `failed c` is a
`return false` from case `c`'s body; `invalidOrder` is the
null-pointer check on the work order before the loop (`return false`). -/
inductive RunResult where
  | completed
  | rosShutdown
  | failed (caseIdx : Nat)
  | invalidOrder
deriving DecidableEq

/-- The observable outcome of one `graspObjectPipeline` run: its result,
the ordered event trace, and how many times `shelf_->deleteProduct` was
invoked. -/
structure RunOut where
  result : RunResult
  events : List Event
  deleteProductCalls : Nat
deriving DecidableEq

/-- The case indices whose action-bearing bodies executed, in order. -/
def RunOut.acts (r : RunOut) : List Nat :=
  r.events.filterMap Event.actIdx

/-- The C++ return value of `graspObjectPipeline`: `true` for the
`default` case and for the loop exiting on ros shutdown (line 647),
`false` for a failed step or an invalid work order. -/
def RunOut.returnValue (r : RunOut) : Bool :=
  match r.result with
  | .completed => true
  | .rosShutdown => true
  | .failed _ => false
  | .invalidOrder => false

/-- The environment of one pipeline run: the mode flags and the
success/failure outcome of each external action the pipeline invokes
(each field corresponds to one fallible call in the corresponding
`switch` case of `graspObjectPipeline`).  The actions are external
collaborators (manipulation, perception, execution); only their
success/failure is visible to the sequencing logic. -/
structure PipelineEnv where
  autonomous : Bool
  gateProceed : Bool
  validWorkOrder : Bool
  fakePerception : Bool
  openEndEffectors : Bool
  perceiveObject : Bool
  chooseGrasp : Bool
  setEEGraspPosture : Bool
  moveToPregrasp : Bool
  executeApproach : Bool
  closeEE : Bool
  attachProduct : Bool
  executeLift : Bool
  executeRetreat : Bool
  updateAttachedObject : Bool
  placeObjectInGoalBin : Bool
  openEERelease : Bool
  liftFromGoalBin : Bool
deriving DecidableEq

/-- The outcome of one execution of the `switch` statement body:
`executed` collects the indices of the action-bearing case bodies that
ran (in order, following C++ fall-through), `next` is either
`.fail c` for `return false` raised in case `c`, or `.brk s` where `s` is
the value of the `step` variable when `break` leaves the switch (the loop
then increments it once more). -/
inductive StepExit where
  | brk (step : Nat)
  | fail (c : Nat)
deriving DecidableEq

/-- See `StepExit`. -/
structure SwitchOut where
  executed : List Nat
  next : StepExit
deriving DecidableEq

/-- Case 2 (lines 359-377): find the product's location; the perception
call runs only when not in fake-perception mode and its failure is
`return false`; ends with `break`. -/
def case2 (env : PipelineEnv) (step : Nat) : SwitchOut :=
  if env.fakePerception then ⟨[2], .brk step⟩
  else if env.perceiveObject then ⟨[2], .brk step⟩
  else ⟨[2], .fail 2⟩

/-- Case 1 (lines 342-356): open the end effector (`return false` on
failure); the `break` is commented out, so after `step++` control falls
through into case 2. -/
def case1 (env : PipelineEnv) (step : Nat) : SwitchOut :=
  if env.openEndEffectors then
    let r := case2 env (step + 1)
    ⟨1 :: r.executed, r.next⟩
  else ⟨[1], .fail 1⟩

/-- Case 0 (lines 338-339): logs "Should not be on step 0" and, lacking
both `return` and `break`, falls through into case 1. -/
def case0 (env : PipelineEnv) (step : Nat) : SwitchOut :=
  case1 env step

/-- Case 3 (lines 380-409): choose the arm and a grasp (`return false`
when no grasp is found); ends with `break`. -/
def case3 (env : PipelineEnv) (step : Nat) : SwitchOut :=
  if env.chooseGrasp then ⟨[3], .brk step⟩ else ⟨[3], .fail 3⟩

/-- Case 6 (lines 441-468): set the grasp posture then move to the
pre-grasp state, `return false` when either fails; ends with `break`. -/
def case6 (env : PipelineEnv) (step : Nat) : SwitchOut :=
  if env.setEEGraspPosture then
    if env.moveToPregrasp then ⟨[6], .brk step⟩ else ⟨[6], .fail 6⟩
  else ⟨[6], .fail 6⟩

/-- Case 5 (lines 435-438): not implemented; `step++` and fall through
into case 6. -/
def case5 (env : PipelineEnv) (step : Nat) : SwitchOut :=
  case6 env (step + 1)

/-- Case 4 (lines 412-432): body fully commented out; `step++` and fall
through into case 5. -/
def case4 (env : PipelineEnv) (step : Nat) : SwitchOut :=
  case5 env (step + 1)

/-- Case 7 (lines 471-513): execute the saved cartesian approach path
(`return false` on failure); ends with `break`. -/
def case7 (env : PipelineEnv) (step : Nat) : SwitchOut :=
  if env.executeApproach then ⟨[7], .brk step⟩ else ⟨[7], .fail 7⟩

/-- Case 8 (lines 516-540): close the end effector and attach the
product; both failures are only logged (`// return false;` is commented
out for the close, and the attach failure is an error log), so the case
always ends with `break`. -/
def case8 (env : PipelineEnv) (step : Nat) : SwitchOut :=
  ⟨[8], .brk step⟩

/-- Case 9 (lines 543-565): execute the saved lift path (`return false`
on failure); ends with `break`. -/
def case9 (env : PipelineEnv) (step : Nat) : SwitchOut :=
  if env.executeLift then ⟨[9], .brk step⟩ else ⟨[9], .fail 9⟩

/-- Case 10 (lines 568-590): execute the saved retreat path
(`return false` on failure); ends with `break`. -/
def case10 (env : PipelineEnv) (step : Nat) : SwitchOut :=
  if env.executeRetreat then ⟨[10], .brk step⟩ else ⟨[10], .fail 10⟩

/-- Case 11 (lines 593-610): updating the attached collision object only
warns on failure; placing the object in the goal bin is `return false` on
failure; ends with `break`. -/
def case11 (env : PipelineEnv) (step : Nat) : SwitchOut :=
  if env.placeObjectInGoalBin then ⟨[11], .brk step⟩ else ⟨[11], .fail 11⟩

/-- Case 12 (lines 613-631): open the end effector then lift from the
goal bin, `return false` when either fails; ends with `break`. -/
def case12 (env : PipelineEnv) (step : Nat) : SwitchOut :=
  if env.openEERelease then
    if env.liftFromGoalBin then ⟨[12], .brk step⟩ else ⟨[12], .fail 12⟩
  else ⟨[12], .fail 12⟩

/-- One execution of the `switch (step)` statement (lines 335-643) for
`step ≤ 12`.  The `default` case (completion) is handled by `runLoop`
before dispatching, mirroring that it is the only case that returns
`true`; the catch-all branch here is never reached from `runLoop`. -/
def switchRun (env : PipelineEnv) (step : Nat) : SwitchOut :=
  match step with
  | 0 => case0 env 0
  | 1 => case1 env 1
  | 2 => case2 env 2
  | 3 => case3 env 3
  | 4 => case4 env 4
  | 5 => case5 env 5
  | 6 => case6 env 6
  | 7 => case7 env 7
  | 8 => case8 env 8
  | 9 => case9 env 9
  | 10 => case10 env 10
  | 11 => case11 env 11
  | 12 => case12 env 12
  | s + 13 => ⟨[], .brk (s + 13)⟩

/-- The operator-gate call at the top of each loop iteration (lines
324-333): in supervised mode the run blocks on
`remote_control_->waitForNextStep()` — whose return value the call site
discards — and in autonomous mode it proceeds immediately. -/
def gateEvents (env : PipelineEnv) : List Event :=
  if env.autonomous then [] else [Event.wait]

/-- The `while (ros::ok())` loop of `graspObjectPipeline` (lines
322-645), entered with the `step` variable set to `jump_to`.  `rosFuel`
is the number of iterations for which the external `ros::ok()` guard
stays true; every claim about complete runs assumes the guard holds long
enough (`14 ≤ rosFuel` always suffices).  Each iteration waits on the
operator gate if supervised, dispatches the switch, and on `break`
increments `step` once more (line 644). -/
def runLoop (env : PipelineEnv) : Nat → Nat → RunOut
  | 0, _ => { result := .rosShutdown, events := [], deleteProductCalls := 0 }
  | fuel + 1, step =>
    if 13 ≤ step then
      { result := .completed, events := gateEvents env, deleteProductCalls := 1 }
    else
      let sw := switchRun env step
      match sw.next with
      | .fail c =>
        { result := .failed c,
          events := gateEvents env ++ sw.executed.map Event.act,
          deleteProductCalls := 0 }
      | .brk s =>
        let rest := runLoop env fuel (s + 1)
        { result := rest.result,
          events := gateEvents env ++ sw.executed.map Event.act ++ rest.events,
          deleteProductCalls := rest.deleteProductCalls }

/-- `APCManager::graspObjectPipeline` (lines 288-648): validate the work
order's pointers, then run the stepping loop starting at `jump_to`. -/
def graspObjectPipeline (env : PipelineEnv) (rosFuel jumpTo : Nat) : RunOut :=
  if env.validWorkOrder then runLoop env rosFuel jumpTo
  else { result := .invalidOrder, events := [], deleteProductCalls := 0 }

/-- The outcome of processing one work order inside `APCManager::runOrder`
(lines 248-277): the pipeline result, the number of times the cleanup
block ran (unattach the product from the end effector, delete its
collision object, delete all markers, re-show the shelf — lines 265-277),
and whether `runOrder` returned `false` for this order. -/
structure OrderOut where
  pipelineResult : RunResult
  cleanupCalls : Nat
  orderAborted : Bool
deriving DecidableEq

/-- The per-order body of `APCManager::runOrder`: run the pipeline; when
it returns `false` and the `super_auto` configuration flag is disabled,
`runOrder` itself returns `false` immediately — before the cleanup block;
otherwise execution reaches the cleanup block exactly once. -/
def processOrder (env : PipelineEnv) (superAuto : Bool) (rosFuel jumpTo : Nat) :
    OrderOut :=
  let r := graspObjectPipeline env rosFuel jumpTo
  if r.returnValue then ⟨r.result, 1, false⟩
  else if superAuto then ⟨r.result, 1, false⟩
  else ⟨r.result, 0, true⟩

/-- All fallible pipeline actions succeed (the absorbed-failure actions of
cases 8 and 11 are irrelevant to control flow). -/
def allActionsSucceed (env : PipelineEnv) : Prop :=
  env.openEndEffectors = true ∧ env.perceiveObject = true ∧
  env.chooseGrasp = true ∧ env.setEEGraspPosture = true ∧
  env.moveToPregrasp = true ∧ env.executeApproach = true ∧
  env.executeLift = true ∧ env.executeRetreat = true ∧
  env.placeObjectInGoalBin = true ∧ env.openEERelease = true ∧
  env.liftFromGoalBin = true

/-- A fully autonomous environment in which every action succeeds. -/
def envAllSuccess : PipelineEnv where
  autonomous := true
  gateProceed := true
  validWorkOrder := true
  fakePerception := false
  openEndEffectors := true
  perceiveObject := true
  chooseGrasp := true
  setEEGraspPosture := true
  moveToPregrasp := true
  executeApproach := true
  closeEE := true
  attachProduct := true
  executeLift := true
  executeRetreat := true
  updateAttachedObject := true
  placeObjectInGoalBin := true
  openEERelease := true
  liftFromGoalBin := true

/-- Every action succeeds but opening the end effectors (case 1) fails. -/
def envOpenFails : PipelineEnv :=
  { envAllSuccess with openEndEffectors := false }

/-- Supervised (non-autonomous) mode, the operator cancels every pending
wait, and every action succeeds. -/
def envGateCancelled : PipelineEnv :=
  { envAllSuccess with autonomous := false, gateProceed := false }

/-! ### Part 3: `FixStateBounds::fixBounds`
(`picknik_main/src/fix_state_bounds.cpp`, lines 67-159) -/

/-- The joint-model types `fixBounds` distinguishes
(`robot_model::JointModel::REVOLUTE / PLANAR / FLOATING`); every other
type (prismatic, fixed, ...) is untouched by the first loop. -/
inductive JointType where
  | revolute
  | planar
  | floating
  | prismatic
deriving DecidableEq

/-- A joint model: its type and, for revolute joints, whether it is
continuous. -/
structure JointModel where
  jtype : JointType
  continuous : Bool
deriving DecidableEq

/-- The MoveIt robot-state primitives `fixBounds` calls, abstracted over
the joint position representation `Pos` (they are external collaborators;
their implementations are out of scope).  `satisfiesBounds` is the exact
bounds check, `satisfiesBoundsDist` the check with the configured
`bounds_dist_` margin, `enforceBounds` clamps/wraps a position into
bounds, and `normalizeRotation` returns the normalized position exactly
when it changed the values (its C++ return value is `true` in that
case). -/
structure JointOps (Pos : Type) where
  enforceBounds : JointModel → Pos → Pos
  satisfiesBounds : JointModel → Pos → Bool
  satisfiesBoundsDist : JointModel → Pos → Bool
  normalizeRotation : JointModel → Pos → Option Pos

variable {Pos : Type} [DecidableEq Pos]

/-- First loop of `fixBounds` (lines 75-119), per joint: wrap continuous
revolute joints via `enforceBounds`, flagging a change when the value
moved (the C++ compares against `std::numeric_limits<double>::epsilon()`);
normalize planar and floating joints via `normalizeRotation`, flagging a
change exactly when it returned `true`; leave every other joint alone.
Returns the new position and the contribution to `change_req`. -/
def normalizeJoint (ops : JointOps Pos) (jm : JointModel) (p : Pos) :
    Pos × Bool :=
  match jm.jtype with
  | .revolute =>
    if jm.continuous then
      let after := ops.enforceBounds jm p
      (after, decide (after ≠ p))
    else (p, false)
  | .planar =>
    match ops.normalizeRotation jm p with
    | some q => (q, true)
    | none => (p, false)
  | .floating =>
    match ops.normalizeRotation jm p with
    | some q => (q, true)
    | none => (p, false)
  | .prismatic => (p, false)

/-- Second loop of `fixBounds` (lines 123-153), per joint: when the joint
violates its exact bounds, either enforce bounds and set `change_req`
when the violation is within the `bounds_dist_` margin, or only emit a
warning (the position is left untouched) when it is beyond the margin. -/
def clampJoint (ops : JointOps Pos) (jm : JointModel) (p : Pos) :
    Pos × Bool :=
  if ops.satisfiesBounds jm p then (p, false)
  else if ops.satisfiesBoundsDist jm p then (ops.enforceBounds jm p, true)
  else (p, false)

/-- `FixStateBounds::fixBounds`: run the normalization loop over all
joints of the group, then the bounds-enforcement loop over the resulting
state, and return the final state together with `change_req`. -/
def fixBounds (ops : JointOps Pos) (joints : List (JointModel × Pos)) :
    List (JointModel × Pos) × Bool :=
  let pass1 : List ((JointModel × Pos) × Bool) :=
    joints.map fun jp =>
      ((jp.1, (normalizeJoint ops jp.1 jp.2).1), (normalizeJoint ops jp.1 jp.2).2)
  let changeReq1 : Bool := pass1.any fun x => x.2
  let pass2 : List ((JointModel × Pos) × Bool) :=
    pass1.map fun x =>
      ((x.1.1, (clampJoint ops x.1.1 x.1.2).1), (clampJoint ops x.1.1 x.1.2).2)
  (pass2.map fun x => x.1, changeReq1 || pass2.any fun x => x.2)

/-- The composed effect of both loops on a single joint (the two loops of
`fixBounds` act on each joint independently). -/
def fixJoint (ops : JointOps Pos) (jm : JointModel) (p : Pos) : Pos × Bool :=
  let n := normalizeJoint ops jm p
  let c := clampJoint ops jm n.1
  (c.1, n.2 || c.2)

/-! ### Concrete instances used by witnesses -/

/-- The deterministic IK oracle of the spec's test scenario (spec.md §8):
solving succeeds exactly for candidate indices 1, 3, 4, 7 and 9. -/
def ikScenario : KinematicsProvider where
  solveGrasp := fun i =>
    if i = 1 ∨ i = 3 ∨ i = 4 ∨ i = 7 ∨ i = 9 then some [0] else none
  solvePregrasp := fun i =>
    if i = 1 ∨ i = 3 ∨ i = 4 ∨ i = 7 ∨ i = 9 then some [1] else none

/-- A concrete joint-operation instance over integer positions with
bounds `[-3, 3]` and margin distance `1` (so the margin check accepts
`[-4, 4]`), used to witness the `fixBounds` theorem: `enforceBounds`
clamps, `normalizeRotation` never fires. -/
def intOps : JointOps Int where
  enforceBounds := fun _ p => max (-3) (min 3 p)
  satisfiesBounds := fun _ p => decide ((-3 : Int) ≤ p ∧ p ≤ 3)
  satisfiesBoundsDist := fun _ p => decide ((-4 : Int) ≤ p ∧ p ≤ 4)
  normalizeRotation := fun _ _ => none

/-! #### Partition lemmas -/

theorem workerStart_zero (n workers : Nat) : workerStart n workers 0 = 0 := by
  simp [workerStart]

theorem workerStart_succ (n workers w : Nat) :
    workerStart n workers (w + 1) =
      workerStart n workers w +
        (n / workers + if w < n % workers then 1 else 0) := by
  unfold workerStart
  rcases Nat.lt_or_ge w (n % workers) with h | h
  · have h1 : min w (n % workers) = w := Nat.min_eq_left (Nat.le_of_lt h)
    have h2 : min (w + 1) (n % workers) = w + 1 := Nat.min_eq_left h
    rw [h1, h2, Nat.succ_mul]
    simp [h]
    omega
  · have h1 : min w (n % workers) = n % workers := Nat.min_eq_right h
    have h2 : min (w + 1) (n % workers) = n % workers :=
      Nat.min_eq_right (Nat.le_succ_of_le h)
    rw [h1, h2, Nat.succ_mul]
    have : ¬ w < n % workers := Nat.not_lt.mpr h
    simp [this]
    omega

theorem workerStart_last (n workers : Nat) (hw : 0 < workers) :
    workerStart n workers workers = n := by
  unfold workerStart
  have hmod : n % workers < workers := Nat.mod_lt _ hw
  rw [Nat.min_eq_right (Nat.le_of_lt hmod)]
  exact Nat.div_add_mod n workers

theorem flatMap_range'_eq (f : Nat → Nat) (h0 : f 0 = 0)
    (hf : ∀ w, f w ≤ f (w + 1)) :
    ∀ cnt, (List.range cnt).flatMap (fun w => List.range' (f w) (f (w + 1) - f w))
      = List.range' 0 (f cnt) := by
  intro cnt
  induction cnt with
  | zero => simp [h0]
  | succ k ih =>
    rw [List.range_succ, List.flatMap_append, ih]
    simp only [List.flatMap_cons, List.flatMap_nil, List.append_nil]
    have := List.range'_append 0 (f k) (f (k + 1) - f k) 1
    simp only [Nat.one_mul, Nat.zero_add] at this
    rw [this]
    congr 1
    have := hf k
    omega

theorem workerStart_mono (n workers w : Nat) :
    workerStart n workers w ≤ workerStart n workers (w + 1) := by
  rw [workerStart_succ]
  exact Nat.le_add_right _ _

theorem workerRanges_flatMap (n workers : Nat) :
    (List.range workers).flatMap
        (fun w => List.range' (workerStart n workers w)
          (workerStart n workers (w + 1) - workerStart n workers w))
      = List.range' 0 (workerStart n workers workers) :=
  flatMap_range'_eq (workerStart n workers) (workerStart_zero n workers)
    (workerStart_mono n workers) workers

/-- The concatenation of the per-worker results equals one worker
filtering the whole input range. -/
theorem filterGrasps_eq_whole (ik : KinematicsProvider) (fp : Bool)
    (n workers : Nat) (hw : 0 < workers) :
    filterGrasps ik fp n workers = filterGraspsWorker ik fp 0 n := by
  unfold filterGrasps filterGraspsWorker
  rw [← List.filterMap_flatMap, workerRanges_flatMap,
    workerStart_last n workers hw]
  simp

theorem evalCandidate_idx (ik : KinematicsProvider) (fp : Bool) (i : Nat)
    (sol : GraspSolution) (h : evalCandidate ik fp i = some sol) :
    sol.graspIdx = i := by
  unfold evalCandidate at h
  cases hg : ik.solveGrasp i <;> rw [hg] at h
  · exact absurd h (by simp)
  · cases fp <;> simp at h
    · rw [← h]
    · cases hp : ik.solvePregrasp i <;> rw [hp] at h <;> simp at h
      rw [← h]

theorem evalCandidate_some_iff (ik : KinematicsProvider) (fp : Bool)
    (i : Nat) :
    (∃ sol, evalCandidate ik fp i = some sol) ↔
      ((ik.solveGrasp i).isSome = true ∧
        (fp = true → (ik.solvePregrasp i).isSome = true)) := by
  unfold evalCandidate
  cases hg : ik.solveGrasp i <;> cases fp <;> simp
  cases hp : ik.solvePregrasp i <;> simp

/-! #### Part 1 claims -/

/-- C1: for every input list and every `filterPregrasp` flag, a candidate
index appears in the output of the grasp feasibility filter iff IK for
its grasp pose succeeded and, when pregrasp filtering is requested, IK
for its pregrasp pose succeeded; a candidate whose required solve fails
is simply absent (the filter's output type carries no error). -/
theorem C1_filter_membership (ik : KinematicsProvider) (fp : Bool)
    (n workers i : Nat) (hw : 0 < workers) (hi : i < n) :
    (∃ sol ∈ filterGrasps ik fp n workers, sol.graspIdx = i) ↔
      ((ik.solveGrasp i).isSome = true ∧
        (fp = true → (ik.solvePregrasp i).isSome = true)) := by
  rw [filterGrasps_eq_whole ik fp n workers hw]
  unfold filterGraspsWorker
  constructor
  · rintro ⟨sol, hmem, hidx⟩
    rw [List.mem_filterMap] at hmem
    obtain ⟨a, _, heval⟩ := hmem
    have : sol.graspIdx = a := evalCandidate_idx ik fp a sol heval
    rw [← evalCandidate_some_iff]
    exact ⟨sol, by rw [← hidx, this]; exact heval⟩
  · intro hcond
    obtain ⟨sol, hsol⟩ := (evalCandidate_some_iff ik fp i).mpr hcond
    refine ⟨sol, List.mem_filterMap.mpr ⟨i, ?_, hsol⟩,
      evalCandidate_idx ik fp i sol hsol⟩
    rw [List.mem_range'_1]
    omega

/-- C1 witness: the spec's scenario (10 candidates, 4 workers, IK
succeeding at {1,3,4,7,9}) instantiated at candidate 3. -/
theorem C1_filter_membership_witness :
    (0 < 4 ∧ 3 < 10) ∧
    ((∃ sol ∈ filterGrasps ikScenario true 10 4, sol.graspIdx = 3) ↔
      ((ikScenario.solveGrasp 3).isSome = true ∧
        (true = true → (ikScenario.solvePregrasp 3).isSome = true))) :=
  ⟨⟨by decide, by decide⟩,
    C1_filter_membership ikScenario true 10 4 3 (by decide) (by decide)⟩

/-- C6: for every candidate list of size `n` partitioned across `workers`
contiguous ranges (as equal as possible, remainder to the first ranges),
the concatenation of the per-worker accepted candidates equals the
filtered output of the whole input, and the output has at most `n`
elements. -/
theorem C6_partition_union (ik : KinematicsProvider) (fp : Bool)
    (n workers : Nat) (hw : 0 < workers) :
    filterGrasps ik fp n workers = filterGraspsWorker ik fp 0 n ∧
    (filterGrasps ik fp n workers).length ≤ n := by
  refine ⟨filterGrasps_eq_whole ik fp n workers hw, ?_⟩
  rw [filterGrasps_eq_whole ik fp n workers hw]
  unfold filterGraspsWorker
  calc (List.filterMap (evalCandidate ik fp) (List.range' 0 (n - 0))).length
      ≤ (List.range' 0 (n - 0)).length := List.length_filterMap_le _ _
    _ = n := by rw [List.length_range']; omega

/-- C6 witness: the partition property at the spec's scenario. -/
theorem C6_partition_union_witness :
    0 < 4 ∧
    (filterGrasps ikScenario true 10 4 = filterGraspsWorker ikScenario true 0 10 ∧
      (filterGrasps ikScenario true 10 4).length ≤ 10) :=
  ⟨by decide, C6_partition_union ikScenario true 10 4 (by decide)⟩

/-- C5: the grasp selector fails with `NoFeasibleGrasp` exactly on an
empty candidate list; on a non-empty list it returns the first candidate
in input order, which is an element of the input. -/
theorem C5_selector (candidates : List GraspSolution) :
    (chooseBestGrasp candidates = .error .NoFeasibleGrasp ↔ candidates = []) ∧
    (∀ c, chooseBestGrasp candidates = .ok c →
      candidates.head? = some c ∧ c ∈ candidates) := by
  cases candidates <;> simp [chooseBestGrasp]

/-- C5 witness: the selector at a concrete two-element list. -/
theorem C5_selector_witness :
    (chooseBestGrasp [⟨4, [0], []⟩, ⟨9, [1], []⟩] = .error .NoFeasibleGrasp ↔
      [(⟨4, [0], []⟩ : GraspSolution), ⟨9, [1], []⟩] = []) ∧
    (∀ c, chooseBestGrasp [⟨4, [0], []⟩, ⟨9, [1], []⟩] = .ok c →
      [(⟨4, [0], []⟩ : GraspSolution), ⟨9, [1], []⟩].head? = some c ∧
        c ∈ [(⟨4, [0], []⟩ : GraspSolution), ⟨9, [1], []⟩]) :=
  C5_selector [⟨4, [0], []⟩, ⟨9, [1], []⟩]

/-- C8: the collision feasibility filter retains exactly the
collision-free candidates of its input, preserves their relative order
(its output is a sublist of the input), and is idempotent; in particular
an already collision-free list is returned unchanged. -/
theorem C8_collision_filter (collisionFree : GraspSolution → Bool)
    (candidates : List GraspSolution) :
    (∀ sol, sol ∈ filterGraspsInCollision collisionFree candidates ↔
        sol ∈ candidates ∧ collisionFree sol = true) ∧
    (filterGraspsInCollision collisionFree candidates).Sublist candidates ∧
    filterGraspsInCollision collisionFree
        (filterGraspsInCollision collisionFree candidates) =
      filterGraspsInCollision collisionFree candidates ∧
    ((∀ sol ∈ candidates, collisionFree sol = true) →
      filterGraspsInCollision collisionFree candidates = candidates) := by
  refine ⟨?_, List.filter_sublist _, ?_, ?_⟩
  · intro sol
    simp [filterGraspsInCollision, List.mem_filter]
  · exact List.filter_eq_self.mpr
      (fun a ha => (List.mem_filter.mp ha).2)
  · intro h
    exact List.filter_eq_self.mpr h

/-- C8 witness: the filter at a concrete list where the predicate rejects
index 9. -/
theorem C8_collision_filter_witness :
    (∀ sol, sol ∈ filterGraspsInCollision (fun s => decide (s.graspIdx ≠ 9))
        [⟨4, [0], []⟩, ⟨9, [1], []⟩] ↔
      sol ∈ [(⟨4, [0], []⟩ : GraspSolution), ⟨9, [1], []⟩] ∧
        decide (sol.graspIdx ≠ 9) = true) ∧
    (filterGraspsInCollision (fun s => decide (s.graspIdx ≠ 9))
        [⟨4, [0], []⟩, ⟨9, [1], []⟩]).Sublist
      [(⟨4, [0], []⟩ : GraspSolution), ⟨9, [1], []⟩] ∧
    filterGraspsInCollision (fun s => decide (s.graspIdx ≠ 9))
        (filterGraspsInCollision (fun s => decide (s.graspIdx ≠ 9))
          [⟨4, [0], []⟩, ⟨9, [1], []⟩]) =
      filterGraspsInCollision (fun s => decide (s.graspIdx ≠ 9))
        [⟨4, [0], []⟩, ⟨9, [1], []⟩] ∧
    ((∀ sol ∈ [(⟨4, [0], []⟩ : GraspSolution), ⟨9, [1], []⟩],
        decide (sol.graspIdx ≠ 9) = true) →
      filterGraspsInCollision (fun s => decide (s.graspIdx ≠ 9))
          [⟨4, [0], []⟩, ⟨9, [1], []⟩] =
        [⟨4, [0], []⟩, ⟨9, [1], []⟩]) :=
  C8_collision_filter (fun s => decide (s.graspIdx ≠ 9))
    [⟨4, [0], []⟩, ⟨9, [1], []⟩]

/-- C9: no two distinct worker thread structs of one filtering call carry
the same solver index: the solver instances handed to concurrent workers
are pairwise distinct (each worker struct holds exactly the one solver at
its own thread id, so no solver handle is shared). -/
theorem C9_solver_exclusivity (n workers : Nat) :
    (makeIkThreads n workers).Pairwise
      (fun t1 t2 => t1.kinSolverIdx ≠ t2.kinSolverIdx) := by
  unfold makeIkThreads
  refine List.Pairwise.map _ ?_ (List.pairwise_lt_range workers)
  intro a b hab
  simpa using Nat.ne_of_lt hab

/-! #### Part 2 lemmas -/

theorem switchRun_brk_ge (env : PipelineEnv) (s s' : Nat)
    (h : (switchRun env s).next = .brk s') : s ≤ s' := by
  rcases s with _|_|_|_|_|_|_|_|_|_|_|_|_|s <;>
    simp only [switchRun, case0, case1, case2, case3, case4, case5, case6,
      case7, case8, case9, case10, case11, case12] at h <;>
    (try split_ifs at h) <;> simp_all <;> omega

theorem switchRun_brk_exec_le (env : PipelineEnv) (s s' x : Nat) (h1 : 1 ≤ s)
    (h : (switchRun env s).next = .brk s')
    (hx : x ∈ (switchRun env s).executed) : x ≤ s' := by
  rcases s with _|_|_|_|_|_|_|_|_|_|_|_|_|s <;>
    simp only [switchRun, case0, case1, case2, case3, case4, case5, case6,
      case7, case8, case9, case10, case11, case12] at h hx <;>
    (try split_ifs at h hx) <;> simp_all <;> omega

theorem switchRun_brk_exec_le_succ (env : PipelineEnv) (s s' x : Nat)
    (h : (switchRun env s).next = .brk s')
    (hx : x ∈ (switchRun env s).executed) : x ≤ s' + 1 := by
  rcases s with _|_|_|_|_|_|_|_|_|_|_|_|_|s <;>
    simp only [switchRun, case0, case1, case2, case3, case4, case5, case6,
      case7, case8, case9, case10, case11, case12] at h hx <;>
    (try split_ifs at h hx) <;> simp_all <;> omega

theorem switchRun_exec_ge (env : PipelineEnv) (s x : Nat)
    (hx : x ∈ (switchRun env s).executed) : s ≤ x := by
  rcases s with _|_|_|_|_|_|_|_|_|_|_|_|_|s <;>
    simp only [switchRun, case0, case1, case2, case3, case4, case5, case6,
      case7, case8, case9, case10, case11, case12] at hx <;>
    (try split_ifs at hx) <;> simp_all <;> omega

theorem switchRun_exec_chain (env : PipelineEnv) (s : Nat) :
    List.Chain' (· < ·) (switchRun env s).executed := by
  rcases s with _|_|_|_|_|_|_|_|_|_|_|_|_|s <;>
    simp only [switchRun, case0, case1, case2, case3, case4, case5, case6,
      case7, case8, case9, case10, case11, case12] <;>
    (try split_ifs) <;> simp_all

theorem switchRun_fail_exec_le (env : PipelineEnv) (s c x : Nat)
    (h : (switchRun env s).next = .fail c)
    (hx : x ∈ (switchRun env s).executed) : x ≤ c := by
  rcases s with _|_|_|_|_|_|_|_|_|_|_|_|_|s <;>
    simp only [switchRun, case0, case1, case2, case3, case4, case5, case6,
      case7, case8, case9, case10, case11, case12] at h hx <;>
    (try split_ifs at h hx) <;> simp_all <;> omega

theorem switchRun_fail_ge (env : PipelineEnv) (s c : Nat)
    (h : (switchRun env s).next = .fail c) : s ≤ c := by
  rcases s with _|_|_|_|_|_|_|_|_|_|_|_|_|s <;>
    simp only [switchRun, case0, case1, case2, case3, case4, case5, case6,
      case7, case8, case9, case10, case11, case12] at h <;>
    (try split_ifs at h) <;> simp_all <;> omega

theorem switchRun_gateIrrel (env : PipelineEnv) (b : Bool) (s : Nat) :
    switchRun { env with gateProceed := b } s = switchRun env s := by
  rcases s with _|_|_|_|_|_|_|_|_|_|_|_|_|s <;> rfl

theorem filterMap_actIdx_gateEvents (env : PipelineEnv) :
    (gateEvents env).filterMap Event.actIdx = [] := by
  unfold gateEvents
  split <;> simp [Event.actIdx]

theorem filterMap_actIdx_map_act (l : List Nat) :
    (l.map Event.act).filterMap Event.actIdx = l := by
  induction l with
  | nil => rfl
  | cons a t ih => simp [Event.actIdx, ih]

theorem runLoop_acts_ge (env : PipelineEnv) :
    ∀ fuel step x, x ∈ (runLoop env fuel step).acts → step ≤ x := by
  intro fuel
  induction fuel with
  | zero => intro step x hx; simp [runLoop, RunOut.acts] at hx
  | succ f ih =>
    intro step x hx
    unfold runLoop at hx
    by_cases h13 : 13 ≤ step
    · simp [h13, RunOut.acts, filterMap_actIdx_gateEvents] at hx
    · simp only [h13, if_false] at hx
      rcases hn : (switchRun env step).next with s' | c <;>
        simp only [hn, RunOut.acts, List.filterMap_append,
          filterMap_actIdx_gateEvents, filterMap_actIdx_map_act,
          List.nil_append, List.mem_append] at hx
      · rcases hx with hx | hx
        · exact switchRun_exec_ge env step x hx
        · have := ih (s' + 1) x hx
          have := switchRun_brk_ge env step s' hn
          omega
      · exact switchRun_exec_ge env step x hx


theorem runLoop_failed_ge (env : PipelineEnv) :
    ∀ fuel step c, (runLoop env fuel step).result = .failed c → step ≤ c := by
  intro fuel
  induction fuel with
  | zero => intro step c hc; simp [runLoop] at hc
  | succ f ih =>
    intro step c hc
    unfold runLoop at hc
    by_cases h13 : 13 ≤ step
    · simp [h13] at hc
    · simp only [h13, if_false] at hc
      rcases hn : (switchRun env step).next with s' | c' <;>
        simp only [hn] at hc
      · have := ih (s' + 1) c hc
        have := switchRun_brk_ge env step s' hn
        omega
      · have := switchRun_fail_ge env step c' hn
        simp at hc
        omega

theorem runLoop_failed_acts_le (env : PipelineEnv) :
    ∀ fuel step c, (runLoop env fuel step).result = .failed c →
      ∀ x ∈ (runLoop env fuel step).acts, x ≤ c := by
  intro fuel
  induction fuel with
  | zero => intro step c hc; simp [runLoop] at hc
  | succ f ih =>
    intro step c hc x hx
    unfold runLoop at hc hx
    by_cases h13 : 13 ≤ step
    · simp [h13] at hc
    · simp only [h13, if_false] at hc hx
      rcases hn : (switchRun env step).next with s' | c' <;>
        simp only [hn, RunOut.acts, List.filterMap_append,
          filterMap_actIdx_gateEvents, filterMap_actIdx_map_act,
          List.nil_append, List.mem_append] at hc hx
      · rcases hx with hx | hx
        · have hrge := runLoop_failed_ge env f (s' + 1) c hc
          have := switchRun_brk_exec_le_succ env step s' x hn hx
          omega
        · exact ih (s' + 1) c hc x hx
      · simp at hc
        rw [← hc]
        exact switchRun_fail_exec_le env step c' x hn hx

theorem runLoop_acts_chain (env : PipelineEnv) :
    ∀ fuel step, 1 ≤ step →
      List.Chain' (· < ·) (runLoop env fuel step).acts := by
  intro fuel
  induction fuel with
  | zero => intro step _; simp [runLoop, RunOut.acts]
  | succ f ih =>
    intro step hstep
    unfold runLoop
    by_cases h13 : 13 ≤ step
    · simp [h13, RunOut.acts, filterMap_actIdx_gateEvents]
    · simp only [h13, if_false]
      rcases hn : (switchRun env step).next with s' | c <;>
        simp only [hn, RunOut.acts, List.filterMap_append,
          filterMap_actIdx_gateEvents, filterMap_actIdx_map_act,
          List.nil_append]
      · refine List.Chain'.append (switchRun_exec_chain env step)
          (ih (s' + 1) (by omega)) ?_
        intro a ha b hb
        have ha' := List.mem_of_mem_getLast? ha
        have hb' := runLoop_acts_ge env f (s' + 1) b
          (List.mem_of_mem_head? hb)
        have := switchRun_brk_exec_le env step s' a hstep hn ha'
        omega
      · exact switchRun_exec_chain env step

theorem runLoop_no_wait (env : PipelineEnv) (ha : env.autonomous = true) :
    ∀ fuel step, Event.wait ∉ (runLoop env fuel step).events := by
  intro fuel
  induction fuel with
  | zero => intro step; simp [runLoop]
  | succ f ih =>
    intro step
    unfold runLoop
    by_cases h13 : 13 ≤ step
    · simp [h13, gateEvents, ha]
    · simp only [h13, if_false]
      rcases hn : (switchRun env step).next with s' | c <;>
        simp only [hn, List.mem_append, gateEvents, ha, if_true,
          List.not_mem_nil, List.mem_map]
      · push_neg
        refine ⟨⟨by simp, fun x _ => by simp⟩, ih (s' + 1)⟩
      · push_neg
        exact ⟨by simp, fun x _ => by simp⟩

theorem runLoop_head_wait (env : PipelineEnv) (ha : env.autonomous = false)
    (fuel step : Nat) (hf : 0 < fuel) :
    (runLoop env fuel step).events.head? = some Event.wait := by
  rcases fuel with _ | f
  · omega
  · unfold runLoop
    by_cases h13 : 13 ≤ step
    · simp [h13, gateEvents, ha]
    · simp only [h13, if_false]
      rcases hn : (switchRun env step).next with s' | c <;>
        simp [hn, gateEvents, ha]

theorem gateEvents_gateIrrel (env : PipelineEnv) (b : Bool) :
    gateEvents { env with gateProceed := b } = gateEvents env := rfl

theorem runLoop_gateIrrel (env : PipelineEnv) (b : Bool) :
    ∀ fuel step,
      runLoop { env with gateProceed := b } fuel step = runLoop env fuel step := by
  intro fuel
  induction fuel with
  | zero => intro step; rfl
  | succ f ih =>
    intro step
    unfold runLoop
    rw [switchRun_gateIrrel, gateEvents_gateIrrel]
    by_cases h13 : 13 ≤ step
    · simp [h13]
    · simp only [h13, if_false]
      rcases hn : (switchRun env step).next with s' | c <;> simp only [hn]
      rw [ih (s' + 1)]

theorem runLoop_fuel_eq (env : PipelineEnv) :
    ∀ f g step, 0 < f → 13 < step + f → 0 < g → 13 < step + g →
      runLoop env f step = runLoop env g step := by
  intro f
  induction f with
  | zero => intro g step hf; omega
  | succ f ih =>
    intro g step _ hf2 hg1 hg2
    rcases g with _ | g
    · omega
    · unfold runLoop
      by_cases h13 : 13 ≤ step
      · simp [h13]
      · simp only [h13, if_false]
        rcases hn : (switchRun env step).next with s' | c <;> simp only [hn]
        have hge := switchRun_brk_ge env step s' hn
        rw [ih g (s' + 1) (by omega) (by omega) (by omega) (by omega)]

/-! #### Part 2 claims -/

/-- C2 counterexample: with the `super_auto` configuration disabled, a
run whose step 1 (open end effectors) fails makes `runOrder` return
`false` before its cleanup block — the cleanup (unattach object, delete
markers) runs zero times for this failed terminal transition, not exactly
once. -/
theorem C2_counterexample :
    (graspObjectPipeline envOpenFails 14 1).result = .failed 1 ∧
    (processOrder envOpenFails false 14 1).cleanupCalls = 0 ∧
    (processOrder envOpenFails false 14 1).orderAborted = true := by decide

/-- C2 (amended): if the action of step `m` fails, the run terminates as
`failed m` and no case body with index greater than `m` executes; the
per-order cleanup block of `runOrder` then runs exactly once when
`super_auto` is enabled, and zero times (runOrder returns first) when it
is disabled. -/
theorem C2_amended_fail_fast (env : PipelineEnv) (superAuto : Bool)
    (rosFuel jumpTo m : Nat)
    (h : (graspObjectPipeline env rosFuel jumpTo).result = .failed m) :
    (∀ x ∈ (graspObjectPipeline env rosFuel jumpTo).acts, x ≤ m) ∧
    (processOrder env superAuto rosFuel jumpTo).cleanupCalls =
      (if superAuto then 1 else 0) := by
  unfold processOrder
  unfold graspObjectPipeline at h ⊢
  cases hvw : env.validWorkOrder with
  | false => rw [hvw] at h; simp at h
  | true =>
    rw [hvw, if_pos rfl] at h
    simp only [hvw, if_true]
    refine ⟨runLoop_failed_acts_le env rosFuel jumpTo m h, ?_⟩
    have hret : (runLoop env rosFuel jumpTo).returnValue = false := by
      unfold RunOut.returnValue
      rw [h]
    rw [hret]
    cases superAuto <;> simp

/-- C2 witness: the amended theorem at a concrete run failing at step 1
with `super_auto` enabled. -/
theorem C2_amended_fail_fast_witness :
    (∀ x ∈ (graspObjectPipeline envOpenFails 14 1).acts, x ≤ 1) ∧
    (processOrder envOpenFails true 14 1).cleanupCalls =
      (if (true : Bool) then 1 else 0) :=
  C2_amended_fail_fast envOpenFails true 14 1 1 (by decide)

/-- C3 counterexample: a run started at step 0 with every action
succeeding does complete and deletes the product exactly once, but it
executes 11 case bodies, running the perception step (case 2) twice:
case 0 falls through cases 1 and 2 with the internal `step++` leaving
`step` at 1, so the post-switch increment re-enters case 2.  No count N
of defined steps makes this "exactly N step executions". -/
theorem C3_counterexample :
    (graspObjectPipeline envAllSuccess 14 0).result = .completed ∧
    (graspObjectPipeline envAllSuccess 14 0).acts =
      [1, 2, 2, 3, 6, 7, 8, 9, 10, 11, 12] ∧
    (graspObjectPipeline envAllSuccess 14 0).acts.count 2 = 2 := by decide

/-- C3 (amended): with a valid work order and every action succeeding, a
run started at step 1 (the first action-bearing step; case 0 logs
"Should not be on step 0") reaches the completed terminal state with the
10 action-bearing case bodies executed exactly once each in index order
and `shelf_->deleteProduct` invoked exactly once; a run started at step 0
also completes and deletes exactly once but executes case 2 twice. -/
theorem C3_amended_completion (env : PipelineEnv) (rosFuel : Nat)
    (hf : 14 ≤ rosFuel) (hv : env.validWorkOrder = true)
    (hall : allActionsSucceed env) :
    ((graspObjectPipeline env rosFuel 1).result = .completed ∧
      (graspObjectPipeline env rosFuel 1).acts =
        [1, 2, 3, 6, 7, 8, 9, 10, 11, 12] ∧
      (graspObjectPipeline env rosFuel 1).deleteProductCalls = 1) ∧
    ((graspObjectPipeline env rosFuel 0).result = .completed ∧
      (graspObjectPipeline env rosFuel 0).acts =
        [1, 2, 2, 3, 6, 7, 8, 9, 10, 11, 12] ∧
      (graspObjectPipeline env rosFuel 0).deleteProductCalls = 1) := by
  have h1 : runLoop env rosFuel 1 = runLoop env 14 1 :=
    runLoop_fuel_eq env rosFuel 14 1 (by omega) (by omega) (by omega) (by omega)
  have h0 : runLoop env rosFuel 0 = runLoop env 14 0 :=
    runLoop_fuel_eq env rosFuel 14 0 (by omega) (by omega) (by omega) (by omega)
  unfold graspObjectPipeline
  rw [hv, if_pos rfl, if_pos rfl, h1, h0]
  obtain ⟨auto, gate, valid, fake, oee, po, cg, sp, mp, ea, ce, ap, el, er,
    ua, pg, oer, lg⟩ := env
  simp only [allActionsSucceed] at hall
  obtain ⟨e1, e2, e3, e4, e5, e6, e7, e8, e9, e10, e11⟩ := hall
  subst e1 e2 e3 e4 e5 e6 e7 e8 e9 e10 e11
  cases valid with
  | false => simp at hv
  | true =>
    cases auto <;> cases gate <;> cases fake <;> cases ce <;> cases ap <;>
      cases ua <;> decide

/-- C3 witness: the amended theorem at the all-success autonomous
environment with 14 iterations of ros availability. -/
theorem C3_amended_completion_witness :
    ((graspObjectPipeline envAllSuccess 14 1).result = .completed ∧
      (graspObjectPipeline envAllSuccess 14 1).acts =
        [1, 2, 3, 6, 7, 8, 9, 10, 11, 12] ∧
      (graspObjectPipeline envAllSuccess 14 1).deleteProductCalls = 1) ∧
    ((graspObjectPipeline envAllSuccess 14 0).result = .completed ∧
      (graspObjectPipeline envAllSuccess 14 0).acts =
        [1, 2, 2, 3, 6, 7, 8, 9, 10, 11, 12] ∧
      (graspObjectPipeline envAllSuccess 14 0).deleteProductCalls = 1) :=
  C3_amended_completion envAllSuccess 14 (by decide) (by decide)
    ⟨rfl, rfl, rfl, rfl, rfl, rfl, rfl, rfl, rfl, rfl, rfl⟩

/-- C4: a run started with jump-to-step K (K ≥ 1) never executes a case
body of index below K and proceeds in strictly increasing index order;
with every action succeeding it executes exactly the action-bearing cases
of index at least K, in order.  (K = 0 is excluded by the claim itself;
starting at 0 re-executes case 2, see the C3 counterexample.) -/
theorem C4_jump_skips (env : PipelineEnv) (rosFuel k : Nat) (hk : 1 ≤ k) :
    (∀ x ∈ (graspObjectPipeline env rosFuel k).acts, k ≤ x) ∧
    List.Chain' (· < ·) (graspObjectPipeline env rosFuel k).acts ∧
    (k < 13 → 14 ≤ rosFuel →
      (graspObjectPipeline envAllSuccess rosFuel k).acts =
        [1, 2, 3, 6, 7, 8, 9, 10, 11, 12].filter (fun x => k ≤ x)) := by
  refine ⟨?_, ?_, ?_⟩
  · intro x hx
    unfold graspObjectPipeline at hx
    cases hvw : env.validWorkOrder <;> rw [hvw] at hx
    · simp [RunOut.acts] at hx
    · rw [if_pos rfl] at hx
      exact runLoop_acts_ge env rosFuel k x hx
  · unfold graspObjectPipeline
    cases hvw : env.validWorkOrder
    · simp [RunOut.acts]
    · rw [if_pos rfl]
      exact runLoop_acts_chain env rosFuel k hk
  · intro hk13 hf
    have he : graspObjectPipeline envAllSuccess rosFuel k =
        graspObjectPipeline envAllSuccess 14 k := by
      unfold graspObjectPipeline
      rw [runLoop_fuel_eq envAllSuccess rosFuel 14 k (by omega) (by omega)
        (by omega) (by omega)]
    rw [he]
    interval_cases k <;> decide

/-- C4 witness: the jump property at K = 4 in the all-success
environment. -/
theorem C4_jump_skips_witness :
    (∀ x ∈ (graspObjectPipeline envAllSuccess 14 4).acts, 4 ≤ x) ∧
    List.Chain' (· < ·) (graspObjectPipeline envAllSuccess 14 4).acts ∧
    (4 < 13 → 14 ≤ 14 →
      (graspObjectPipeline envAllSuccess 14 4).acts =
        [1, 2, 3, 6, 7, 8, 9, 10, 11, 12].filter (fun x => 4 ≤ x)) :=
  C4_jump_skips envAllSuccess 14 4 (by decide)

/-- C7 counterexample: in supervised mode with the operator cancelling
every pending wait, the run still executes every step and completes —
`waitForNextStep`'s result is discarded at the call site, so cancellation
does not terminate the run as a failure; moreover the event trace shows
that the single authorization of the first iteration covers the two
fall-through steps 1 and 2 (no wait separates their actions). -/
theorem C7_counterexample :
    envGateCancelled.autonomous = false ∧
    envGateCancelled.gateProceed = false ∧
    (graspObjectPipeline envGateCancelled 14 1).result = .completed ∧
    (graspObjectPipeline envGateCancelled 14 1).events =
      [.wait, .act 1, .act 2, .wait, .act 3, .wait, .act 6, .wait, .act 7,
       .wait, .act 8, .wait, .act 9, .wait, .act 10, .wait, .act 11,
       .wait, .act 12, .wait] := by decide

/-- C7 (amended): in autonomous mode no operator wait occurs and every
step proceeds immediately; in supervised mode each loop iteration begins
with one operator wait (in particular a run's first event is a wait), but
a single authorization covers all fall-through steps of that iteration,
and the gate's answer is discarded — the run is identical whatever the
gate returns, so cancelling a pending wait does not abort the run. -/
theorem C7_amended_gate (env : PipelineEnv) (rosFuel jumpTo : Nat) :
    (env.autonomous = true →
      Event.wait ∉ (graspObjectPipeline env rosFuel jumpTo).events) ∧
    (env.autonomous = false → env.validWorkOrder = true → 0 < rosFuel →
      (graspObjectPipeline env rosFuel jumpTo).events.head? =
        some Event.wait) ∧
    graspObjectPipeline { env with gateProceed := false } rosFuel jumpTo =
      graspObjectPipeline env rosFuel jumpTo := by
  refine ⟨?_, ?_, ?_⟩
  · intro ha
    unfold graspObjectPipeline
    cases hvw : env.validWorkOrder
    · simp
    · rw [if_pos rfl]
      exact runLoop_no_wait env ha rosFuel jumpTo
  · intro ha hv hf
    unfold graspObjectPipeline
    rw [hv, if_pos rfl]
    exact runLoop_head_wait env ha rosFuel jumpTo hf
  · unfold graspObjectPipeline
    by_cases hvw : env.validWorkOrder = true
    · have h2 : ({ env with gateProceed := false } :
          PipelineEnv).validWorkOrder = true := hvw
      rw [if_pos h2, if_pos hvw]
      exact runLoop_gateIrrel env false rosFuel jumpTo
    · have h2 : ¬ (({ env with gateProceed := false } :
          PipelineEnv).validWorkOrder = true) := hvw
      rw [if_neg h2, if_neg hvw]

/-- C7 witness: the amended gate behaviour at the supervised,
all-cancelled environment. -/
theorem C7_amended_gate_witness :
    (envGateCancelled.autonomous = true →
      Event.wait ∉ (graspObjectPipeline envGateCancelled 14 1).events) ∧
    (envGateCancelled.autonomous = false →
      envGateCancelled.validWorkOrder = true → 0 < 14 →
      (graspObjectPipeline envGateCancelled 14 1).events.head? =
        some Event.wait) ∧
    graspObjectPipeline { envGateCancelled with gateProceed := false } 14 1 =
      graspObjectPipeline envGateCancelled 14 1 :=
  C7_amended_gate envGateCancelled 14 1

/-! #### Part 3 lemmas -/

theorem normalizeJoint_flag_false (ops : JointOps Pos) (jm : JointModel)
    (p : Pos) (h : (normalizeJoint ops jm p).2 = false) :
    (normalizeJoint ops jm p).1 = p := by
  obtain ⟨jt, cont⟩ := jm
  cases jt <;> simp only [normalizeJoint] at h ⊢
  · cases cont <;> simp_all
  · cases hnr : ops.normalizeRotation ⟨.planar, cont⟩ p <;> simp_all
  · cases hnr : ops.normalizeRotation ⟨.floating, cont⟩ p <;> simp_all

theorem clampJoint_flag_false (ops : JointOps Pos) (jm : JointModel)
    (p : Pos) (h : (clampJoint ops jm p).2 = false) :
    (clampJoint ops jm p).1 = p := by
  unfold clampJoint at h ⊢
  split_ifs at h ⊢ <;> simp_all

theorem clampJoint_flag_true (ops : JointOps Pos) (jm : JointModel)
    (p : Pos) (h : (clampJoint ops jm p).2 = true) :
    ops.satisfiesBounds jm p = false ∧
    (clampJoint ops jm p).1 = ops.enforceBounds jm p := by
  unfold clampJoint at h ⊢
  split_ifs at h ⊢ <;> simp_all

theorem clampJoint_sat (ops : JointOps Pos) (jm : JointModel) (p : Pos)
    (h : ops.satisfiesBounds jm p = true) :
    clampJoint ops jm p = (p, false) := by
  unfold clampJoint
  rw [if_pos h]

theorem normalizeJoint_flag_true (ops : JointOps Pos)
    (hnorm : ∀ jm p q, ops.normalizeRotation jm p = some q → q ≠ p)
    (hnormSat : ∀ jm p q, ops.normalizeRotation jm p = some q →
      ops.satisfiesBounds jm q = true)
    (henfSat : ∀ jm p, ops.satisfiesBounds jm (ops.enforceBounds jm p) = true)
    (jm : JointModel) (p : Pos) (h : (normalizeJoint ops jm p).2 = true) :
    (normalizeJoint ops jm p).1 ≠ p ∧
    ops.satisfiesBounds jm (normalizeJoint ops jm p).1 = true := by
  obtain ⟨jt, cont⟩ := jm
  cases jt
  case revolute =>
    cases cont
    case false => simp [normalizeJoint] at h
    case true =>
      simp only [normalizeJoint] at h ⊢
      exact ⟨by simpa using h, henfSat _ _⟩
  case planar =>
    cases hnr : ops.normalizeRotation ⟨.planar, cont⟩ p
    case none => simp [normalizeJoint, hnr] at h
    case some q =>
      simp only [normalizeJoint, hnr]
      exact ⟨hnorm _ _ _ hnr, hnormSat _ _ _ hnr⟩
  case floating =>
    cases hnr : ops.normalizeRotation ⟨.floating, cont⟩ p
    case none => simp [normalizeJoint, hnr] at h
    case some q =>
      simp only [normalizeJoint, hnr]
      exact ⟨hnorm _ _ _ hnr, hnormSat _ _ _ hnr⟩
  case prismatic => simp [normalizeJoint] at h

theorem fixJoint_flag_false (ops : JointOps Pos) (jm : JointModel)
    (p : Pos) (h : (fixJoint ops jm p).2 = false) :
    (fixJoint ops jm p).1 = p := by
  simp only [fixJoint] at h ⊢
  simp only [Bool.or_eq_false_iff] at h
  obtain ⟨h1, h2⟩ := h
  have e1 := normalizeJoint_flag_false ops jm p h1
  rw [e1] at h2 ⊢
  exact clampJoint_flag_false ops jm p h2

theorem fixJoint_flag_true (ops : JointOps Pos)
    (hnorm : ∀ jm p q, ops.normalizeRotation jm p = some q → q ≠ p)
    (hnormSat : ∀ jm p q, ops.normalizeRotation jm p = some q →
      ops.satisfiesBounds jm q = true)
    (henfSat : ∀ jm p, ops.satisfiesBounds jm (ops.enforceBounds jm p) = true)
    (henfChange : ∀ jm p, ops.satisfiesBounds jm p = false →
      ops.enforceBounds jm p ≠ p)
    (jm : JointModel) (p : Pos) (h : (fixJoint ops jm p).2 = true) :
    (fixJoint ops jm p).1 ≠ p := by
  simp only [fixJoint] at h ⊢
  by_cases hn2 : (normalizeJoint ops jm p).2 = true
  · obtain ⟨hne, hsat⟩ :=
      normalizeJoint_flag_true ops hnorm hnormSat henfSat jm p hn2
    rw [clampJoint_sat ops jm _ hsat]
    exact hne
  · rw [Bool.not_eq_true] at hn2
    have e1 := normalizeJoint_flag_false ops jm p hn2
    rw [hn2, Bool.false_or] at h
    rw [e1] at h ⊢
    obtain ⟨hsat, hcl⟩ := clampJoint_flag_true ops jm p h
    rw [hcl]
    exact henfChange jm p hsat

theorem fixJoint_stationary (ops : JointOps Pos) (jm : JointModel) (p : Pos)
    (h1 : (normalizeJoint ops jm p).2 = false)
    (h2 : ops.satisfiesBounds jm p = false →
      ops.satisfiesBoundsDist jm p = false) :
    fixJoint ops jm p = (p, false) := by
  have e1 := normalizeJoint_flag_false ops jm p h1
  simp only [fixJoint]
  rw [e1, h1, Bool.false_or]
  cases hsat : ops.satisfiesBounds jm p
  · unfold clampJoint
    rw [if_neg (by simp [hsat]), if_neg (by simp [h2 hsat])]
  · rw [clampJoint_sat ops jm p hsat]

theorem fixBounds_fst (ops : JointOps Pos) (joints : List (JointModel × Pos)) :
    (fixBounds ops joints).1 =
      joints.map fun jp => (jp.1, (fixJoint ops jp.1 jp.2).1) := by
  simp only [fixBounds, fixJoint, List.map_map]
  rfl

theorem list_any_map {α β : Type} (f : α → β) (l : List α) (p : β → Bool) :
    (l.map f).any p = l.any (fun x => p (f x)) := by
  induction l with
  | nil => rfl
  | cons a t ih => simp only [List.map_cons, List.any_cons, ih]

theorem list_any_or {α : Type} (l : List α) (f g : α → Bool) :
    (l.any f || l.any g) = l.any (fun x => f x || g x) := by
  induction l with
  | nil => rfl
  | cons a t ih =>
    simp only [List.any_cons]
    rw [← ih]
    cases f a <;> cases g a <;> cases t.any f <;> cases t.any g <;> rfl

theorem fixBounds_snd_eq (ops : JointOps Pos)
    (joints : List (JointModel × Pos)) :
    (fixBounds ops joints).2 =
      joints.any (fun jp => (fixJoint ops jp.1 jp.2).2) := by
  simp only [fixBounds, list_any_map]
  rw [list_any_or]
  rfl

theorem fixBounds_snd (ops : JointOps Pos)
    (joints : List (JointModel × Pos)) :
    ((fixBounds ops joints).2 = true ↔
      ∃ jp ∈ joints, (fixJoint ops jp.1 jp.2).2 = true) := by
  rw [fixBounds_snd_eq, List.any_eq_true]

theorem list_map_eq_self {α : Type} (f : α → α) (l : List α) :
    l.map f = l ↔ ∀ x ∈ l, f x = x := by
  induction l with
  | nil => simp
  | cons a t ih => simp [ih]

/-! #### Part 3 claim -/

/-- C10: given the MoveIt joint primitives' contracts (`normalizeRotation`
reports `true` exactly when it changed the values and yields an in-bounds
result, `enforceBounds` yields an in-bounds result and moves any
out-of-bounds position), `fixBounds` returns `true` iff it modified the
robot state; a joint that the normalization pass leaves alone and whose
position violates its bounds by more than the configured bounds distance
is left unmodified (only warned about); and a state all of whose joints
are non-normalizable and out of bounds only beyond the margin is returned
unchanged with result `false`. -/
theorem C10_fixBounds (ops : JointOps Pos)
    (hnorm : ∀ jm p q, ops.normalizeRotation jm p = some q → q ≠ p)
    (hnormSat : ∀ jm p q, ops.normalizeRotation jm p = some q →
      ops.satisfiesBounds jm q = true)
    (henfSat : ∀ jm p, ops.satisfiesBounds jm (ops.enforceBounds jm p) = true)
    (henfChange : ∀ jm p, ops.satisfiesBounds jm p = false →
      ops.enforceBounds jm p ≠ p)
    (joints : List (JointModel × Pos)) :
    ((fixBounds ops joints).2 = true ↔ (fixBounds ops joints).1 ≠ joints) ∧
    (∀ (i : Nat) (jm : JointModel) (p : Pos), joints[i]? = some (jm, p) →
      (normalizeJoint ops jm p).2 = false →
      ops.satisfiesBounds jm p = false →
      ops.satisfiesBoundsDist jm p = false →
      (fixBounds ops joints).1[i]? = some (jm, p)) ∧
    ((∀ jp ∈ joints, (normalizeJoint ops jp.1 jp.2).2 = false) →
     (∀ jp ∈ joints, ops.satisfiesBounds jp.1 jp.2 = false →
        ops.satisfiesBoundsDist jp.1 jp.2 = false) →
     fixBounds ops joints = (joints, false)) := by
  refine ⟨⟨?_, ?_⟩, ?_, ?_⟩
  · intro h2 heq
    obtain ⟨jp, hm, hf⟩ := (fixBounds_snd ops joints).mp h2
    rw [fixBounds_fst ops joints] at heq
    have hx := (list_map_eq_self _ joints).mp heq jp hm
    have hne := fixJoint_flag_true ops hnorm hnormSat henfSat henfChange
      jp.1 jp.2 hf
    exact hne (congrArg Prod.snd hx)
  · intro hne
    by_contra hflag
    rw [Bool.not_eq_true] at hflag
    apply hne
    rw [fixBounds_fst ops joints]
    apply (list_map_eq_self _ joints).mpr
    intro x hx
    have hxf : (fixJoint ops x.1 x.2).2 = false := by
      by_contra hxf
      rw [Bool.not_eq_false] at hxf
      have := (fixBounds_snd ops joints).mpr ⟨x, hx, hxf⟩
      rw [hflag] at this
      exact Bool.false_ne_true this
    rw [fixJoint_flag_false ops x.1 x.2 hxf]
  · intro i jm p hidx hn hsat hdist
    rw [fixBounds_fst ops joints, List.getElem?_map, hidx]
    have := fixJoint_stationary ops jm p hn (fun _ => hdist)
    simp [this]
  · intro hall1 hall2
    have hfix : ∀ jp ∈ joints, fixJoint ops jp.1 jp.2 = (jp.2, false) :=
      fun jp hm => fixJoint_stationary ops jp.1 jp.2 (hall1 jp hm) (hall2 jp hm)
    have hfst : (fixBounds ops joints).1 = joints := by
      rw [fixBounds_fst ops joints]
      apply (list_map_eq_self _ joints).mpr
      intro x hx
      rw [hfix x hx]
    have hsnd : (fixBounds ops joints).2 = false := by
      by_contra hs
      rw [Bool.not_eq_false] at hs
      obtain ⟨jp, hm, hf⟩ := (fixBounds_snd ops joints).mp hs
      rw [hfix jp hm] at hf
      exact Bool.false_ne_true hf
    calc fixBounds ops joints
        = ((fixBounds ops joints).1, (fixBounds ops joints).2) := rfl
      _ = (joints, false) := by rw [hfst, hsnd]

theorem intOps_enfSat (jm : JointModel) (p : Int) :
    intOps.satisfiesBounds jm (intOps.enforceBounds jm p) = true := by
  simp only [intOps, decide_eq_true_eq]
  omega

theorem intOps_enfChange (jm : JointModel) (p : Int)
    (h : intOps.satisfiesBounds jm p = false) :
    intOps.enforceBounds jm p ≠ p := by
  simp only [intOps, decide_eq_false_iff_not, not_and, not_le] at h
  simp only [intOps]
  omega

/-- C10 witness: the `fixBounds` theorem at the integer joint operations
and the one-joint state `[(prismatic, 10)]`, out of bounds by more than
the margin: the state is returned unchanged with result `false`. -/
theorem C10_fixBounds_witness :
    ((fixBounds intOps [(⟨JointType.prismatic, false⟩, (10 : Int))]).2 = true ↔
      (fixBounds intOps [(⟨JointType.prismatic, false⟩, (10 : Int))]).1 ≠
        [(⟨JointType.prismatic, false⟩, (10 : Int))]) ∧
    (∀ (i : Nat) (jm : JointModel) (p : Int),
      [(⟨JointType.prismatic, false⟩, (10 : Int))][i]? = some (jm, p) →
      (normalizeJoint intOps jm p).2 = false →
      intOps.satisfiesBounds jm p = false →
      intOps.satisfiesBoundsDist jm p = false →
      (fixBounds intOps [(⟨JointType.prismatic, false⟩, (10 : Int))]).1[i]? =
        some (jm, p)) ∧
    ((∀ jp ∈ [(⟨JointType.prismatic, false⟩, (10 : Int))],
        (normalizeJoint intOps jp.1 jp.2).2 = false) →
     (∀ jp ∈ [(⟨JointType.prismatic, false⟩, (10 : Int))],
        intOps.satisfiesBounds jp.1 jp.2 = false →
          intOps.satisfiesBoundsDist jp.1 jp.2 = false) →
     fixBounds intOps [(⟨JointType.prismatic, false⟩, (10 : Int))] =
       ([(⟨JointType.prismatic, false⟩, (10 : Int))], false)) :=
  C10_fixBounds intOps
    (fun _ _ _ h => absurd h (by simp [intOps]))
    (fun _ _ _ h => absurd h (by simp [intOps]))
    intOps_enfSat intOps_enfChange
    [(⟨JointType.prismatic, false⟩, (10 : Int))]

end Picknik
